import Mathlib

/-!
Shallow embedding of the portfolio rebalancer in `src/app.py`
(class `PortfolioRebalancer`: `initialize_data`, `calculate_metrics`,
`resumo`), with theorems settling the specification claims.

Modelling conventions:
* pandas DataFrames become Lean lists of records; machine floats become
  exact rationals (`ℚ`);
* a float value that the Python code leaves non-finite (NaN from `0/0`,
  or `±inf` from division of a nonzero value by zero) is modelled as
  `none : Option ℚ`; a finite value `v` is `some v`.  The only column
  where the source can produce a non-finite value is `% Atual`
  (`market_value / total` with no guard on `total == 0`);
* a Python exception escaping a method is modelled with `Except`:
  `pd.DataFrame` raises `ValueError` when the hard-coded 8-element
  `Categoria` column does not pair with `pesos` (modelled as
  `RebErr.valueErrorLengthMismatch`); the spec's `ConfigurationError`
  is a separate constructor so the two failure modes can be compared.
-/

/-- One row of `self.raw_df` after the `rename` call in
`initialize_data`: the canonical column names. Only the columns that the
allocation math reads are modelled (`Subcategoria` = asset id,
`Patrimônio Atual` = market value). -/
structure Holding where
  subcategoria : String
  patrimonio : ℚ
deriving DecidableEq, Repr

/-- One row of the uploaded holdings table before the rename: the raw
column names `ATIVO` and `PATRIMÔNIO ATUAL`. -/
structure RawHolding where
  ativo : String
  patrimonio_atual : ℚ
deriving DecidableEq, Repr

/-- The `rename` step of `initialize_data`: maps the raw column names to
the canonical ones (`ATIVO` → `Subcategoria`,
`PATRIMÔNIO ATUAL` → `Patrimônio Atual`); values are untouched. -/
def rename_columns (r : RawHolding) : Holding :=
  ⟨r.ativo, r.patrimonio_atual⟩

/-- One row of `self.data`.  `categoria`, `subcategoria`, `alvo`
(`% Alvo Subcat`) and `patrimonio` (`Patrimônio Atual`, after
`fillna(0)`) exist from `initialize_data` on; `atual` (`% Atual`),
`gap` (`Gap`) and `aporte` (`Aporte`) are the columns written by
`calculate_metrics`.  Before `calculate_metrics` runs those columns do
not exist in the frame; the placeholders `none` / `0` used here are
never read (`calculate_metrics` overwrites them without reading). -/
structure Row where
  categoria : String
  subcategoria : String
  alvo : ℚ
  patrimonio : ℚ
  atual : Option ℚ
  gap : ℚ
  aporte : ℚ
deriving DecidableEq, Repr

/-- Failure modes of the pipeline.  `valueErrorLengthMismatch` is the
`ValueError` pandas raises in `initialize_data` when the arrays given to
`pd.DataFrame` have different lengths.  `configurationError` is the
error class the specification prescribes for an invalid target-weight
mapping; no code path produces it. -/
inductive RebErr where
  | configurationError
  | valueErrorLengthMismatch
deriving DecidableEq, Repr

/-- The hard-coded `Categoria` column of the `base` frame in
`initialize_data`. -/
def categorias : List String :=
  ["Renda Fixa", "Renda Fixa",
   "Ações", "Ações", "Ações", "Ações",
   "Exterior", "Exterior"]

/-- `base.merge(self.raw_df, on='Subcategoria', how='left')` followed by
`fillna(0)` on `Patrimônio Atual`: every base row `(categoria,
subcategoria, alvo)` is paired with each holding whose `Subcategoria`
matches; when no holding matches, the row is kept once with the merge's
NaN market value replaced by `0`.  Holdings whose `Subcategoria` matches
no base row do not appear (left join). -/
def mergeLeft (base : List (String × String × ℚ)) (raw_df : List Holding) : List Row :=
  base.flatMap fun b =>
    match raw_df.filter (fun h => h.subcategoria == b.2.1) with
    | [] => [⟨b.1, b.2.1, b.2.2, 0, none, 0, 0⟩]
    | ms => ms.map fun h => ⟨b.1, b.2.1, b.2.2, h.patrimonio, none, 0, 0⟩

/-- `PortfolioRebalancer.initialize_data` (after the rename): builds the
`base` frame from the hard-coded 8-element `Categoria` list together
with `pesos.keys()` and `pesos.values()` — `pd.DataFrame` raises
`ValueError` when `len(pesos) ≠ 8` — and left-merges it with the
holdings. `pesos` is the target-weight mapping as an ordered association
list (Python dicts iterate in insertion order). -/
def initialize_data (pesos : List (String × ℚ)) (raw_df : List Holding) :
    Except RebErr (List Row) :=
  if pesos.length = categorias.length then
    .ok (mergeLeft (categorias.zip pesos) raw_df)
  else
    .error .valueErrorLengthMismatch

/-- `total = self.data['Patrimônio Atual'].sum()`. -/
def totalOf (data : List Row) : ℚ :=
  (data.map (·.patrimonio)).sum

/-- The `% Atual` value of one row:
`self.data['Patrimônio Atual'] / total`.  The source divides with no
guard; when `total == 0` the float result is non-finite (NaN for a zero
numerator, `±inf` otherwise), modelled as `none`. -/
def shareOf (total patrimonio : ℚ) : Option ℚ :=
  if total = 0 then none else some (patrimonio / total)

/-- The `Gap` value of one row:
`(total + aporte_mensal) * '% Alvo Subcat' - 'Patrimônio Atual'`. -/
def gapOf (total aporte_mensal : ℚ) (r : Row) : ℚ :=
  (total + aporte_mensal) * r.alvo - r.patrimonio

/-- Writing the `% Atual` column of one row. -/
def withShare (total : ℚ) (r : Row) : Row :=
  { r with atual := shareOf total r.patrimonio }

/-- Writing the `Gap` column of one row. -/
def withGap (total aporte_mensal : ℚ) (r : Row) : Row :=
  { r with gap := gapOf total aporte_mensal r }

/-- Writing the `Aporte` column of one row when some gap is positive:
`r['Gap'] / soma * aporte_mensal if r['Gap'] > 0 else 0`. -/
def setAporte (soma aporte_mensal : ℚ) (r : Row) : Row :=
  { r with aporte := if 0 < r.gap then r.gap / soma * aporte_mensal else 0 }

/-- `PortfolioRebalancer.calculate_metrics`: computes `% Atual`, `Gap`
and `Aporte` on `self.data`, returning the updated frame.
`positivos = self.data[self.data['Gap'] > 0]['Gap']`; when it is
non-empty each positive-gap row receives `Gap / positivos.sum() *
aporte_mensal` and the rest receive `0`; otherwise the whole `Aporte`
column is `0`. -/
def calculate_metrics (aporte_mensal : ℚ) (data : List Row) : List Row :=
  let total := totalOf data
  let data2 := (data.map (withShare total)).map (withGap total aporte_mensal)
  let positivos := (data2.map (·.gap)).filter (fun g => 0 < g)
  if positivos.isEmpty then
    data2.map fun r => { r with aporte := 0 }
  else
    data2.map (setAporte positivos.sum aporte_mensal)

/-- `pandas.Series.sum()` with its default `skipna=True` over a column
that may hold non-finite entries produced by `0/0` (NaN): NaN entries
are skipped.  (Faithful whenever no `±inf` occurs, i.e. whenever every
market value is non-negative.) -/
def sumSkipNA (l : List (Option ℚ)) : ℚ :=
  (l.filterMap id).sum

/-- The ordering used by
`self.data.sort_values('Patrimônio Atual', ascending=False)` on
index-carrying rows: descending by `Patrimônio Atual`, comparing only
the values. -/
def byPatDesc (x y : ℕ × Row) : Prop :=
  y.2.patrimonio ≤ x.2.patrimonio

instance : DecidableRel byPatDesc := fun x y =>
  inferInstanceAs (Decidable (y.2.patrimonio ≤ x.2.patrimonio))

instance : IsTotal (ℕ × Row) byPatDesc :=
  ⟨fun x y => le_total y.2.patrimonio x.2.patrimonio⟩

instance : IsTrans (ℕ × Row) byPatDesc :=
  ⟨fun _ _ _ h1 h2 => le_trans h2 h1⟩

/-- The stability relation for the descending sort on index-carrying
rows: among rows with equal `Patrimônio Atual`, earlier original rows
come first. -/
def stableBefore (x y : ℕ × Row) : Prop :=
  x.2.patrimonio = y.2.patrimonio → x.1 < y.1

/-- What `self.data.sort_values('Patrimônio Atual', ascending=False)`
(default `kind='quicksort'`) guarantees about its result `s`, as rows
carrying their original index: `s` is a permutation of the frame's
(index, row) pairs, descending in `Patrimônio Atual` — always; and
among tied rows the original order is preserved when the frame has at
most 16 rows, where numpy's `quicksort` argsort runs its insertion-sort
branch (below the `SMALL_QUICKSORT` cutoff) and pandas' `nargsort`
double reversal for `ascending=False` turns that stable ascending
argsort into a stable descending one.  For larger frames — reachable
here, since the left merge emits one row per matching holding — numpy's
introsort partitioning does not preserve tie order and the documented
interface leaves it unspecified, so this model deliberately does not
constrain it. -/
def sortValuesSpec (data : List Row) (s : List (ℕ × Row)) : Prop :=
  s.Perm data.enum ∧ s.Sorted byPatDesc ∧
    (data.length ≤ 16 → s.Pairwise stableBefore)

/-- `resumo`'s "Top 3 Concentração"
(`self.data.sort_values('Patrimônio Atual', ascending=False).head(3)['% Atual'].sum()`),
as a function of the arrangement `s` that `sort_values` returned. -/
def topConcentrationOf (s : List (ℕ × Row)) : ℚ :=
  sumSkipNA ((s.take 3).map (·.2.atual))

/-- `PortfolioRebalancer.__init__(df, pesos, aporte_mensal)`: copies the
caller's frame (`self.raw_df = df.copy()`), renames its columns (the
`rename` result is assigned back to `self.raw_df`; the caller's object
is untouched), runs `initialize_data` (which may raise) and
`calculate_metrics`.  The first component is the constructed object's
state `(aporte_mensal, pesos, raw_df, data)` or the escaping exception;
the second component is the caller's frame object after the call, so
that in-place mutation of the input — were any source line to perform
one — would be observable. -/
def portfolioRebalancer (df : List RawHolding) (pesos : List (String × ℚ))
    (aporte_mensal : ℚ) :
    Except RebErr (ℚ × List (String × ℚ) × List Holding × List Row) × List RawHolding :=
  let raw_df := df.map id
  let raw_df := raw_df.map rename_columns
  match initialize_data pesos raw_df with
  | .error e => (.error e, df)
  | .ok data => (.ok (aporte_mensal, pesos, raw_df, calculate_metrics aporte_mensal data), df)

/-- The app's default target-weight mapping (the sidebar's eight
assets), used as a concrete test configuration. -/
def pesos8 : List (String × ℚ) :=
  [("B5P211", 3/10), ("IB5M11", 1/10), ("DIVO11", 3/40),
   ("charles-river-fia", 3/40), ("guepardo-institucional-fic-fia", 3/40),
   ("real-investor-fia-bdr-nivel-i", 3/40), ("IVVB11", 3/20), ("WRLD11", 3/20)]

/-- *Modelled from the spec:* the `normalize` result the specification
describes — one `AllocationRow` per entry of `targetWeights`, in
configuration order, with `market_value` taken from the (unique)
matching holdings row and defaulting to `0` when no match exists.  Used
only to compare `initialize_data` against the spec's words. -/
def specTable (pesos : List (String × ℚ)) (raw_df : List Holding) : List Row :=
  (categorias.zip pesos).map fun b =>
    ⟨b.1, b.2.1, b.2.2,
     ((raw_df.find? (fun h => h.subcategoria == b.2.1)).map (·.patrimonio)).getD 0,
     none, 0, 0⟩

/-! ### Helper lemmas -/

/-- Projection of the Except value, to compare failure modes. -/
def errOf {α : Type} (e : Except RebErr α) : Option RebErr :=
  match e with
  | .error x => some x
  | .ok _ => none

/-- The intermediate frame of `calculate_metrics` after the `% Atual`
and `Gap` columns are written. -/
def data2Of (aporte_mensal : ℚ) (data : List Row) : List Row :=
  (data.map (withShare (totalOf data))).map (withGap (totalOf data) aporte_mensal)

/-- The gaps of `calculate_metrics` that are strictly positive,
computed from the input table (`positivos`). -/
def positivosOf (aporte_mensal : ℚ) (data : List Row) : List ℚ :=
  ((data2Of aporte_mensal data).map (·.gap)).filter (fun g => 0 < g)

/-- The `Aporte` value `calculate_metrics` assigns to a row `r` of its
input table. -/
def aporteOf (aporte_mensal : ℚ) (data : List Row) (r : Row) : ℚ :=
  if (positivosOf aporte_mensal data).isEmpty then 0
  else if 0 < gapOf (totalOf data) aporte_mensal r then
    gapOf (totalOf data) aporte_mensal r / (positivosOf aporte_mensal data).sum * aporte_mensal
  else 0

/-- The full effect of `calculate_metrics` on one row of its input. -/
def outRow (aporte_mensal : ℚ) (data : List Row) (r : Row) : Row :=
  { r with atual := shareOf (totalOf data) r.patrimonio,
           gap := gapOf (totalOf data) aporte_mensal r,
           aporte := aporteOf aporte_mensal data r }

@[simp] lemma gapOf_withShare (t t2 a : ℚ) (r : Row) :
    gapOf t a (withShare t2 r) = gapOf t a r := rfl

lemma calculate_metrics_eq_map (aporte_mensal : ℚ) (data : List Row) :
    calculate_metrics aporte_mensal data = data.map (outRow aporte_mensal data) := by
  show (if (positivosOf aporte_mensal data).isEmpty then
          (data2Of aporte_mensal data).map fun r => { r with aporte := 0 }
        else
          (data2Of aporte_mensal data).map
            (setAporte (positivosOf aporte_mensal data).sum aporte_mensal)) =
      data.map (outRow aporte_mensal data)
  by_cases hE : (positivosOf aporte_mensal data).isEmpty
  · rw [if_pos hE]
    simp only [data2Of, List.map_map]
    refine List.map_congr_left fun r _ => ?_
    simp [Function.comp_def, outRow, aporteOf, hE, withShare, withGap, gapOf]
  · rw [if_neg hE]
    simp only [data2Of, List.map_map]
    refine List.map_congr_left fun r _ => ?_
    simp [Function.comp_def, outRow, aporteOf, hE, withShare, withGap, setAporte, gapOf]

@[simp] lemma outRow_patrimonio (a : ℚ) (d : List Row) (r : Row) :
    (outRow a d r).patrimonio = r.patrimonio := rfl

@[simp] lemma outRow_alvo (a : ℚ) (d : List Row) (r : Row) :
    (outRow a d r).alvo = r.alvo := rfl

@[simp] lemma outRow_categoria (a : ℚ) (d : List Row) (r : Row) :
    (outRow a d r).categoria = r.categoria := rfl

@[simp] lemma outRow_subcategoria (a : ℚ) (d : List Row) (r : Row) :
    (outRow a d r).subcategoria = r.subcategoria := rfl

@[simp] lemma outRow_atual (a : ℚ) (d : List Row) (r : Row) :
    (outRow a d r).atual = shareOf (totalOf d) r.patrimonio := rfl

@[simp] lemma outRow_gap (a : ℚ) (d : List Row) (r : Row) :
    (outRow a d r).gap = gapOf (totalOf d) a r := rfl

@[simp] lemma outRow_aporte (a : ℚ) (d : List Row) (r : Row) :
    (outRow a d r).aporte = aporteOf a d r := rfl

lemma map_patrimonio_calc (a : ℚ) (d : List Row) :
    (calculate_metrics a d).map (·.patrimonio) = d.map (·.patrimonio) := by
  rw [calculate_metrics_eq_map, List.map_map]; rfl

lemma map_gap_calc (a : ℚ) (d : List Row) :
    (calculate_metrics a d).map (·.gap) = d.map fun r => gapOf (totalOf d) a r := by
  rw [calculate_metrics_eq_map, List.map_map]; rfl

lemma totalOf_calc (a : ℚ) (d : List Row) : totalOf (calculate_metrics a d) = totalOf d := by
  unfold totalOf
  rw [map_patrimonio_calc]

lemma map_alvo_calc (a : ℚ) (d : List Row) :
    (calculate_metrics a d).map (·.alvo) = d.map (·.alvo) := by
  rw [calculate_metrics_eq_map, List.map_map]; rfl

lemma map_atual_calc (a : ℚ) (d : List Row) :
    (calculate_metrics a d).map (·.atual) =
      d.map fun r => shareOf (totalOf d) r.patrimonio := by
  rw [calculate_metrics_eq_map, List.map_map]; rfl

lemma map_aporte_calc (a : ℚ) (d : List Row) :
    (calculate_metrics a d).map (·.aporte) = d.map (aporteOf a d) := by
  rw [calculate_metrics_eq_map, List.map_map]; rfl

lemma sum_map_gapOf (t a : ℚ) (d : List Row) :
    (d.map fun r => gapOf t a r).sum =
      (t + a) * (d.map (·.alvo)).sum - (d.map (·.patrimonio)).sum := by
  induction d with
  | nil => simp
  | cons x xs ih =>
    simp only [gapOf] at ih ⊢
    simp only [List.map_cons, List.sum_cons, ih]
    ring

lemma sum_map_ite_pos {α : Type} (l : List α) (g : α → ℚ) (f : α → ℚ) :
    (l.map fun x => if 0 < g x then f x else 0).sum =
      ((l.filter fun x => 0 < g x).map f).sum := by
  induction l with
  | nil => simp
  | cons x xs ih =>
    by_cases hx : 0 < g x
    · simp [List.filter_cons, hx, ih]
    · simp [List.filter_cons, hx, ih]

lemma sum_map_div_mul {α : Type} (l : List α) (f : α → ℚ) (s a : ℚ) :
    (l.map fun x => f x / s * a).sum = (l.map f).sum / s * a := by
  induction l with
  | nil => simp
  | cons x xs ih =>
    simp only [List.map_cons, List.sum_cons, ih]
    ring

lemma positivosOf_eq_filter_map (a : ℚ) (d : List Row) :
    positivosOf a d = ((d.filter fun r => 0 < gapOf (totalOf d) a r).map
      fun r => gapOf (totalOf d) a r) := by
  unfold positivosOf data2Of
  rw [List.map_map, List.map_map]
  have : (((fun x : Row => x.gap) ∘ withGap (totalOf d) a) ∘ withShare (totalOf d)) =
      fun r => gapOf (totalOf d) a r := rfl
  rw [this, List.filter_map]
  rfl

/-! ### Claims -/

/-- **C6.** For every row of the normalized table, `computeMetrics`
sets `gap = (total + contribution) * target_weight - market_value`,
where `total` is the sum of `market_value` over all rows; and the gap
can indeed come out negative (no clamping): in the spec's Scenario 2
(`A` holds 200 of a 200 portfolio with target 1/2, contribution 100),
`gap_A = -50 < 0`. -/
theorem C6_gap_formula :
    (∀ (a : ℚ) (d : List Row),
      (calculate_metrics a d).map (·.gap) =
        d.map fun r => (totalOf d + a) * r.alvo - r.patrimonio) ∧
    (∃ (a : ℚ) (d : List Row) (r : Row), r ∈ calculate_metrics a d ∧ r.gap < 0) := by
  constructor
  · intro a d
    rw [map_gap_calc]
    rfl
  · refine ⟨100, [⟨"Ações", "A", 1/2, 200, none, 0, 0⟩, ⟨"Ações", "B", 1/2, 0, none, 0, 0⟩],
      ?_⟩
    rw [calculate_metrics_eq_map]
    refine ⟨outRow 100 _ ⟨"Ações", "A", 1/2, 200, none, 0, 0⟩, List.mem_map_of_mem _ ?_, ?_⟩
    · exact List.mem_cons_self _ _
    · show gapOf (totalOf _) 100 _ < 0
      norm_num [gapOf, totalOf]

/-- **C10.** When the target weights of the table's rows sum to exactly
1, the gaps produced by `computeMetrics` sum to exactly the contribution
amount (exact arithmetic):
`sum(gap) = (total + contribution) * sum(target_weight) - total`. -/
theorem C10_gap_sum (a : ℚ) (d : List Row)
    (h : (d.map (·.alvo)).sum = 1) :
    ((calculate_metrics a d).map (·.gap)).sum = a := by
  rw [map_gap_calc, sum_map_gapOf, h, totalOf]
  ring

/-- Witness for C10 at the spec's Scenario 1 (two assets with weight
1/2 each, both holding 100, contribution 100). -/
theorem C10_gap_sum_witness :
    (([⟨"Ações", "A", 1/2, 100, none, 0, 0⟩,
       ⟨"Ações", "B", 1/2, 100, none, 0, 0⟩] : List Row).map (·.alvo)).sum = 1 ∧
    ((calculate_metrics 100
      [⟨"Ações", "A", 1/2, 100, none, 0, 0⟩,
       ⟨"Ações", "B", 1/2, 100, none, 0, 0⟩]).map (·.gap)).sum = 100 :=
  ⟨by norm_num, C10_gap_sum 100 _ (by norm_num)⟩

lemma positivos_sum_pos (a : ℚ) (d : List Row)
    (h : ¬ (positivosOf a d).isEmpty) : 0 < (positivosOf a d).sum := by
  apply List.sum_pos
  · intro x hx
    have := List.of_mem_filter hx
    simpa using this
  · intro hnil
    exact h (by simp [hnil])

lemma exists_pos_gap_iff (a : ℚ) (d : List Row) :
    (∃ r ∈ calculate_metrics a d, 0 < r.gap) ↔ ¬ (positivosOf a d).isEmpty := by
  rw [List.isEmpty_iff, positivosOf_eq_filter_map]
  constructor
  · rintro ⟨r, hr, hpos⟩ hnil
    rw [calculate_metrics_eq_map] at hr
    obtain ⟨r0, hr0, rfl⟩ := List.mem_map.mp hr
    rw [outRow_gap] at hpos
    have : gapOf (totalOf d) a r0 ∈
        (List.filter (fun r => decide (0 < gapOf (totalOf d) a r)) d).map
          fun r => gapOf (totalOf d) a r :=
      List.mem_map_of_mem _ (List.mem_filter.mpr ⟨hr0, by simpa using hpos⟩)
    rw [hnil] at this
    exact absurd this (List.not_mem_nil _)
  · intro hne
    rcases hq : (d.filter fun r => 0 < gapOf (totalOf d) a r) with _ | ⟨r0, rest⟩
    · exact absurd (by rw [hq]; rfl) hne
    · have hr0 : r0 ∈ d.filter fun r => 0 < gapOf (totalOf d) a r := by
        rw [hq]; exact List.mem_cons_self _ _
      have hmem := List.mem_of_mem_filter hr0
      have hpos : 0 < gapOf (totalOf d) a r0 := by
        simpa using List.of_mem_filter hr0
      refine ⟨outRow a d r0, ?_, by simpa using hpos⟩
      rw [calculate_metrics_eq_map]
      exact List.mem_map_of_mem _ hmem

/-- **C1.** Whenever at least one row's gap is positive, the per-row
contribution values produced by `computeMetrics` sum exactly to the
contribution amount (exact arithmetic), and every row whose gap is not
positive gets contribution 0. -/
theorem C1_contribution_sum (a : ℚ) (d : List Row)
    (h : ∃ r ∈ calculate_metrics a d, 0 < r.gap) :
    ((calculate_metrics a d).map (·.aporte)).sum = a ∧
    ∀ r ∈ calculate_metrics a d, ¬ 0 < r.gap → r.aporte = 0 := by
  have hne : ¬ (positivosOf a d).isEmpty := (exists_pos_gap_iff a d).mp h
  have hsum : 0 < (positivosOf a d).sum := positivos_sum_pos a d hne
  constructor
  · rw [map_aporte_calc]
    have : d.map (aporteOf a d) = d.map fun r =>
        if 0 < gapOf (totalOf d) a r then
          gapOf (totalOf d) a r / (positivosOf a d).sum * a
        else 0 := by
      refine List.map_congr_left fun r _ => ?_
      simp [aporteOf, hne]
    rw [this, sum_map_ite_pos d (fun r => gapOf (totalOf d) a r)
      (fun r => gapOf (totalOf d) a r / (positivosOf a d).sum * a),
      sum_map_div_mul, ← positivosOf_eq_filter_map]
    rw [div_self (ne_of_gt hsum), one_mul]
  · intro r hr hng
    rw [calculate_metrics_eq_map] at hr
    obtain ⟨r0, hr0, rfl⟩ := List.mem_map.mp hr
    rw [outRow_gap] at hng
    rw [outRow_aporte]
    simp [aporteOf, hne, if_neg hng]

/-- Witness for C1 at the spec's Scenario 1: both gaps are 50 > 0 and
the contributions 50 + 50 sum to the contribution 100. -/
theorem C1_contribution_sum_witness :
    (∃ r ∈ calculate_metrics 100
      [⟨"Ações", "A", 1/2, 100, none, 0, 0⟩,
       ⟨"Ações", "B", 1/2, 100, none, 0, 0⟩], 0 < r.gap) ∧
    ((calculate_metrics 100
      [⟨"Ações", "A", 1/2, 100, none, 0, 0⟩,
       ⟨"Ações", "B", 1/2, 100, none, 0, 0⟩]).map (·.aporte)).sum = 100 := by
  have h : ∃ r ∈ calculate_metrics 100
      [⟨"Ações", "A", 1/2, 100, none, 0, 0⟩,
       ⟨"Ações", "B", 1/2, 100, none, 0, 0⟩], 0 < r.gap := by
    rw [calculate_metrics_eq_map]
    refine ⟨outRow 100 _ ⟨"Ações", "A", 1/2, 100, none, 0, 0⟩,
      List.mem_map_of_mem _ (List.mem_cons_self _ _), ?_⟩
    show (0:ℚ) < gapOf (totalOf _) 100 _
    norm_num [gapOf, totalOf]
  exact ⟨h, (C1_contribution_sum 100 _ h).1⟩

lemma map_gapOf_calc (a : ℚ) (d : List Row) :
    (calculate_metrics a d).map (fun r => gapOf (totalOf d) a r) =
      d.map (fun r => gapOf (totalOf d) a r) := by
  rw [calculate_metrics_eq_map, List.map_map]
  rfl

lemma positivosOf_calc (a : ℚ) (d : List Row) :
    positivosOf a (calculate_metrics a d) = positivosOf a d := by
  unfold positivosOf data2Of
  rw [totalOf_calc]
  have h1 : (((calculate_metrics a d).map (withShare (totalOf d))).map
      (withGap (totalOf d) a)).map (·.gap) =
      (calculate_metrics a d).map (fun r => gapOf (totalOf d) a r) := by
    rw [List.map_map, List.map_map]; rfl
  have h2 : ((d.map (withShare (totalOf d))).map (withGap (totalOf d) a)).map (·.gap) =
      d.map (fun r => gapOf (totalOf d) a r) := by
    rw [List.map_map, List.map_map]; rfl
  rw [h1, h2, map_gapOf_calc]

/-- **C8.** `computeMetrics` is idempotent: applying it a second time to
the table it produced (already carrying the `% Atual`, `Gap` and
`Aporte` columns) with the same contribution yields the identical
table — a pure recomputation with no hidden state drift. -/
theorem C8_idempotent (a : ℚ) (d : List Row) :
    calculate_metrics a (calculate_metrics a d) = calculate_metrics a d := by
  have hrow : ∀ r : Row,
      outRow a (calculate_metrics a d) (outRow a d r) = outRow a d r := by
    intro r
    simp only [outRow, aporteOf, totalOf_calc, positivosOf_calc, gapOf]
  rw [calculate_metrics_eq_map a (calculate_metrics a d)]
  have hmap : (calculate_metrics a d).map (outRow a (calculate_metrics a d)) =
      (calculate_metrics a d).map id := by
    refine List.map_congr_left fun r2 hr2 => ?_
    rw [calculate_metrics_eq_map] at hr2
    obtain ⟨r0, _, rfl⟩ := List.mem_map.mp hr2
    exact hrow r0
  rw [hmap, List.map_id]

/-- **C5.** The hard-coded 8-element `Categoria` column must pair
one-to-one with the target keys: for any target mapping whose size is
not exactly 8, `initialize_data` raises (`pd.DataFrame` length-mismatch
`ValueError`) instead of producing a table. -/
theorem C5_eight_entries_required (pesos : List (String × ℚ)) (raw_df : List Holding)
    (h : pesos.length ≠ 8) :
    initialize_data pesos raw_df = .error .valueErrorLengthMismatch := by
  unfold initialize_data
  rw [if_neg]
  intro hc
  exact h hc

/-- Witness for C5: a one-entry mapping fails. -/
theorem C5_eight_entries_required_witness :
    ([("A", (1:ℚ))] : List (String × ℚ)).length ≠ 8 ∧
    initialize_data [("A", (1:ℚ))] [] = .error .valueErrorLengthMismatch :=
  ⟨by decide, C5_eight_entries_required [("A", 1)] [] (by decide)⟩

/-- **C4, counterexample.** Invoking the core with an empty
`targetWeights` mapping does fail, but with the pandas length-mismatch
`ValueError` — not with the `ConfigurationError` the claim names. -/
theorem C4_counterexample :
    errOf (initialize_data [] []) = some RebErr.valueErrorLengthMismatch ∧
    errOf (initialize_data [] []) ≠ some RebErr.configurationError :=
  ⟨by decide, by decide⟩

/-- **C4, amended.** For every holdings snapshot, invoking the core
with an empty `targetWeights` mapping fails — with the generic
length-mismatch `ValueError` from pairing the empty key list with the
hard-coded 8-element category column; no dedicated `ConfigurationError`
(and no explicit emptiness validation) exists in the code. -/
theorem C4_empty_weights_error (raw_df : List Holding) :
    initialize_data [] raw_df = .error .valueErrorLengthMismatch := rfl

/-- **C2, counterexample.** With a holdings snapshot that carries two
rows for the same asset (`B5P211` twice — possible in the app, which
concatenates two spreadsheet sheets), the left merge emits one output
row per match: 9 rows for the 8 target entries, so the output row count
does not equal the number of target entries. -/
theorem C2_counterexample :
    (initialize_data pesos8 [⟨"B5P211", 100⟩, ⟨"B5P211", 50⟩]).toOption.map List.length
      = some 9 ∧ pesos8.length = 8 :=
  ⟨rfl, rfl⟩

lemma filter_eq_find_toList (t : List Holding) (s : String)
    (hnd : (t.map (·.subcategoria)).Nodup) :
    t.filter (fun x => x.subcategoria == s) =
      (t.find? (fun x => x.subcategoria == s)).toList := by
  induction t with
  | nil => rfl
  | cons x t ih =>
    rw [List.map_cons, List.nodup_cons] at hnd
    obtain ⟨hx, ht⟩ := hnd
    by_cases hxs : (x.subcategoria == s) = true
    · rw [List.filter_cons_of_pos, List.find?_cons_of_pos]
      · have htf : t.filter (fun y => y.subcategoria == s) = [] := by
          rw [List.filter_eq_nil_iff]
          intro y hy hys
          apply hx
          have h1 : y.subcategoria = s := by simpa using hys
          have h2 : x.subcategoria = s := by simpa using hxs
          rw [h2, ← h1]
          exact List.mem_map_of_mem _ hy
        rw [htf]
        rfl
      · exact hxs
      · exact hxs
    · rw [List.filter_cons_of_neg, List.find?_cons_of_neg]
      · exact ih ht
      · simpa using hxs
      · simpa using hxs

lemma mergeLeft_eq_spec (base : List (String × String × ℚ)) (h : List Holding)
    (hnd : (h.map (·.subcategoria)).Nodup) :
    mergeLeft base h = base.map fun b =>
      ⟨b.1, b.2.1, b.2.2,
       ((h.find? (fun x => x.subcategoria == b.2.1)).map (·.patrimonio)).getD 0,
       none, 0, 0⟩ := by
  induction base with
  | nil => rfl
  | cons b bs ih =>
    show (match h.filter (fun x => x.subcategoria == b.2.1) with
      | [] => [⟨b.1, b.2.1, b.2.2, 0, none, 0, 0⟩]
      | ms => ms.map fun x => ⟨b.1, b.2.1, b.2.2, x.patrimonio, none, 0, 0⟩)
        ++ mergeLeft bs h = _
    rw [filter_eq_find_toList h _ hnd, ih]
    simp only [List.map_cons]
    cases h.find? (fun x => x.subcategoria == b.2.1) with
    | none => rfl
    | some y => rfl

/-- **C2, amended.** Whenever `initialize_data` succeeds (the target
mapping has exactly as many entries as the hard-coded 8-element
category column — see C5) and the holdings snapshot carries at most one
row per asset id, the output equals the spec's table: exactly one row
per target entry in configuration order, `market_value` taken from the
matching holdings row and defaulting to 0 when no row matches, and
holdings whose asset id is not a target key never appearing; in
particular the row count equals the number of target entries.  (The
claim's "regardless of how many holdings rows match" fails — see the
counterexample — because a target whose asset id matches k > 1 holdings
rows is emitted k times.) -/
theorem C2_left_join (pesos : List (String × ℚ)) (raw_df : List Holding)
    (h8 : pesos.length = categorias.length)
    (hnd : (raw_df.map (·.subcategoria)).Nodup) :
    initialize_data pesos raw_df = .ok (specTable pesos raw_df) ∧
    (specTable pesos raw_df).length = pesos.length := by
  constructor
  · unfold initialize_data
    rw [if_pos h8, mergeLeft_eq_spec _ _ hnd]
    rfl
  · unfold specTable
    rw [List.length_map, List.length_zip, h8, min_self]

/-- Witness for C2 (amended): the app's default 8-asset configuration
against a single-row snapshot. -/
theorem C2_left_join_witness :
    initialize_data pesos8 [⟨"B5P211", 100⟩] = .ok (specTable pesos8 [⟨"B5P211", 100⟩]) ∧
    (specTable pesos8 [⟨"B5P211", 100⟩]).length = pesos8.length :=
  C2_left_join pesos8 [⟨"B5P211", 100⟩] rfl (by decide)

/-- **C3** (the code, evaluated at the failing input): on a snapshot
with zero total market value (here: an entirely empty holdings table
under the app's default 8-asset targets, contribution 500 — the spec's
Scenario 3), `calculate_metrics` divides by the zero total with no
guard, so every `% Atual` entry is the non-finite float NaN (`none` in
this model), not the 0 the specification requires. -/
theorem C3_zero_total_not_zero_share :
    initialize_data pesos8 [] = .ok (mergeLeft (categorias.zip pesos8) []) ∧
    (calculate_metrics 500 (mergeLeft (categorias.zip pesos8) [])).map (·.atual) =
      [none, none, none, none, none, none, none, none] ∧
    (none : Option ℚ) ≠ some 0 := by
  refine ⟨rfl, ?_, by decide⟩
  norm_num [calculate_metrics, mergeLeft, pesos8, categorias, totalOf, withShare, withGap,
    setAporte, shareOf, gapOf, List.filter]

/-- **C9.** The caller-supplied holdings frame is left unchanged by
constructing a `PortfolioRebalancer`: the object works on its own copy
(`df.copy()`), and the rename, merge and column writes all target that
copy or the freshly merged frame — on success and on failure alike. -/
theorem C9_input_not_mutated (df : List RawHolding) (pesos : List (String × ℚ))
    (aporte_mensal : ℚ) :
    (portfolioRebalancer df pesos aporte_mensal).2 = df := by
  simp only [portfolioRebalancer]
  cases initialize_data pesos ((df.map id).map rename_columns) <;> rfl

lemma le_fst_of_mem_enumFrom {α : Type} {x : ℕ × α} :
    ∀ {n : ℕ} {l : List α}, x ∈ List.enumFrom n l → n ≤ x.1 := by
  intro n l
  induction l generalizing n with
  | nil => intro hx; cases hx
  | cons y ys ih =>
    intro hx
    rcases List.mem_cons.mp hx with h | h
    · rw [h]
    · exact Nat.le_of_succ_le (ih h)

lemma pairwise_fst_lt_enumFrom {α : Type} :
    ∀ (n : ℕ) (l : List α), (List.enumFrom n l).Pairwise fun a b => a.1 < b.1 := by
  intro n l
  induction l generalizing n with
  | nil => exact List.Pairwise.nil
  | cons y ys ih =>
    refine List.Pairwise.cons ?_ (ih (n + 1))
    intro z hz
    exact Nat.lt_of_succ_le (le_fst_of_mem_enumFrom hz)

lemma pairwise_orderedInsert {α : Type} (r : α → α → Prop) [DecidableRel r]
    (S : α → α → Prop) (x : α) :
    ∀ (l : List α), l.Pairwise S → (∀ y ∈ l, ¬ r x y → S y x) → (∀ y ∈ l, S x y) →
      (l.orderedInsert r x).Pairwise S := by
  intro l
  induction l with
  | nil =>
    intro _ _ _
    exact List.pairwise_singleton S x
  | cons b t ih =>
    intro hl h1 h2
    rw [List.orderedInsert]
    by_cases hrb : r x b
    · rw [if_pos hrb]
      exact List.Pairwise.cons h2 hl
    · rw [if_neg hrb]
      rw [List.pairwise_cons] at hl
      refine List.Pairwise.cons ?_ ?_
      · intro z hz
        rcases (List.mem_orderedInsert r).mp hz with h | h
        · rw [h]
          exact h1 b (List.mem_cons_self b t) hrb
        · exact hl.1 z h
      · exact ih hl.2 (fun y hy => h1 y (List.mem_cons_of_mem b hy))
          (fun y hy => h2 y (List.mem_cons_of_mem b hy))

lemma insertionSort_pairwise {α : Type} (r : α → α → Prop) [DecidableRel r]
    (S : α → α → Prop) (hrs : ∀ x y, ¬ r x y → S y x) :
    ∀ (l : List α), l.Pairwise S → (l.insertionSort r).Pairwise S := by
  intro l
  induction l with
  | nil =>
    intro _
    exact List.Pairwise.nil
  | cons x xs ih =>
    intro hl
    rw [List.pairwise_cons] at hl
    rw [List.insertionSort]
    refine pairwise_orderedInsert r S x _ (ih hl.2) (fun y _ hnr => hrs x y hnr) ?_
    intro y hy
    exact hl.1 y ((List.perm_insertionSort r xs).subset hy)

lemma insertionSort_enum_stable (data : List Row) :
    (data.enum.insertionSort byPatDesc).Pairwise stableBefore := by
  refine insertionSort_pairwise byPatDesc stableBefore ?_ data.enum ?_
  · intro x y hnr heq
    exact absurd (show byPatDesc x y from le_of_eq heq) hnr
  · refine (pairwise_fst_lt_enumFrom 0 data).imp ?_
    intro _ _ hab _
    exact hab

/-- The guarantee `sortValuesSpec` is satisfiable at every frame, by
the stable descending insertion sort — which is the exact behavior of
`sort_values` in the at-most-16-row regime. -/
lemma sortValuesSpec_insertionSort (data : List Row) :
    sortValuesSpec data (data.enum.insertionSort byPatDesc) :=
  ⟨List.perm_insertionSort _ _, List.sorted_insertionSort _ _,
   fun _ => insertionSort_enum_stable data⟩

lemma atual_eq_of_mem_calc (a : ℚ) (d : List Row) {r : Row}
    (hr : r ∈ calculate_metrics a d) :
    r.atual = shareOf (totalOf d) r.patrimonio := by
  rw [calculate_metrics_eq_map] at hr
  obtain ⟨r0, _, rfl⟩ := List.mem_map.mp hr
  rfl

instance : IsAntisymm ℚ (fun x y : ℚ => y ≤ x) :=
  ⟨fun _ _ h1 h2 => le_antisymm h2 h1⟩

lemma map_patrimonio_eq_of_sorted (t : List (ℕ × Row)) (l1 l2 : List (ℕ × Row))
    (hp1 : l1.Perm t) (hp2 : l2.Perm t)
    (hs1 : l1.Sorted byPatDesc) (hs2 : l2.Sorted byPatDesc) :
    l1.map (·.2.patrimonio) = l2.map (·.2.patrimonio) := by
  have hs1m : (l1.map (·.2.patrimonio)).Sorted (fun a b : ℚ => b ≤ a) := by
    rw [List.Sorted, List.pairwise_map]
    exact hs1
  have hs2m : (l2.map (·.2.patrimonio)).Sorted (fun a b : ℚ => b ≤ a) := by
    rw [List.Sorted, List.pairwise_map]
    exact hs2
  exact List.eq_of_perm_of_sorted ((hp1.trans hp2.symm).map _) hs1m hs2m

lemma take_map_atual_eq (a : ℚ) (d : List Row) (l1 l2 : List (ℕ × Row))
    (hp1 : l1.Perm (calculate_metrics a d).enum)
    (hp2 : l2.Perm (calculate_metrics a d).enum)
    (hs1 : l1.Sorted byPatDesc) (hs2 : l2.Sorted byPatDesc) :
    (l1.take 3).map (·.2.atual) = (l2.take 3).map (·.2.atual) := by
  have hmem : ∀ x ∈ (calculate_metrics a d).enum,
      x.2.atual = shareOf (totalOf d) x.2.patrimonio := by
    intro x hx
    have : x.2 ∈ calculate_metrics a d := by
      have := List.mem_map_of_mem Prod.snd hx
      rw [List.enum_map_snd] at this
      exact this
    exact atual_eq_of_mem_calc a d this
  have hpat : l1.map (·.2.patrimonio) = l2.map (·.2.patrimonio) :=
    map_patrimonio_eq_of_sorted _ _ _ hp1 hp2 hs1 hs2
  have key : ∀ l3 : List (ℕ × Row), l3.Perm (calculate_metrics a d).enum →
      (l3.take 3).map (·.2.atual) =
        ((l3.take 3).map (·.2.patrimonio)).map (shareOf (totalOf d)) := by
    intro l3 hp3
    rw [List.map_map]
    refine List.map_congr_left fun x hx => ?_
    exact hmem x (hp3.subset (List.mem_of_mem_take hx))
  rw [key l1 hp1, key l2 hp2]
  simp only [List.map_take]
  rw [hpat]

/-- On a `calculate_metrics` table, the "Top 3 Concentração" value is
the same for every arrangement `sort_values` may return: rows tied in
`Patrimônio Atual` are also tied in `% Atual` (both are functions of
the market value given the fixed total), so the tie order — unspecified
above 16 rows — cannot change the displayed sum. -/
lemma topConcentrationOf_value_unique (a : ℚ) (d : List Row) (s1 s2 : List (ℕ × Row))
    (h1 : sortValuesSpec (calculate_metrics a d) s1)
    (h2 : sortValuesSpec (calculate_metrics a d) s2) :
    topConcentrationOf s1 = topConcentrationOf s2 := by
  unfold topConcentrationOf
  rw [take_map_atual_eq a d s1 s2 h1.1 h2.1 h1.2.1 h2.2.1]
